import Mathlib

/-!
Shallow embedding of the grading core of the EDUCORE school-administration
backend, together with proofs of the specified properties.

The embedded code is the grading module:
  - the zod validation schemas `createScoreSchema` and `updateScoreSchema`
    (src/modules/grading/grading.validation.ts), restricted to their numeric
    fields, and the controller branch that surfaces a zod failure as a
    VALIDATION_ERROR response with HTTP status 422
    (GradingController.createScore / updateScore);
  - GradingService.getStudentGrades: group the score rows of one student by
    subjectId and, per group, accumulate weighted percentages into a final
    grade and letter grade (report-card view);
  - GradingService.getClassSubjectScores: one accumulator per ACTIVE
    enrollment of the class, each score row added to the accumulator of its
    student when that student is enrolled, then the same final-grade
    computation (gradebook view).

JavaScript numbers are modelled as exact rationals; JS Math.round is
round-half-up, which for every real argument equals the floor of x + 1/2.
The JS object used for grouping preserves key insertion order, so it is
modelled as an association list in which a new key is appended at the end
and an existing key is updated in place.
-/

namespace Educore

/-- JS Math.round: round half up, equal to the floor of x + 1/2. -/
def mathRound (x : ℚ) : ℤ := ⌊x + 1/2⌋

/-- Rounding to two decimals as written in the source:
Math.round(x * 100) / 100. -/
def round2 (x : ℚ) : ℚ := (mathRound (x * 100) : ℚ) / 100

/-- One score row as read by the two aggregation views: the numeric fields
score, maxScore, weight drive the arithmetic; the remaining fields are
grouping keys and metadata carried through to the output. -/
structure Score where
  id : String
  studentId : String
  subjectId : String
  scoreType : String
  score : ℚ
  maxScore : ℚ
  weight : ℚ
  notes : String
  dateRecorded : String
deriving Repr, DecidableEq

/-- percentage = (scoreNum / maxScoreNum) * 100, unrounded. -/
def Score.percentage (s : Score) : ℚ := s.score / s.maxScore * 100

/-- weightedScore = percentage * weightNum, unrounded. -/
def Score.weightedScore (s : Score) : ℚ := s.percentage * s.weight

/-- Per-record entry pushed by getStudentGrades: rounded percentage and
rounded weighted score next to the raw fields. -/
structure StudentScoreView where
  id : String
  scoreType : String
  score : ℚ
  maxScore : ℚ
  weight : ℚ
  percentage : ℚ
  weightedScore : ℚ
  notes : String
  dateRecorded : String
deriving Repr, DecidableEq

def Score.toStudentView (s : Score) : StudentScoreView :=
  { id := s.id, scoreType := s.scoreType, score := s.score,
    maxScore := s.maxScore, weight := s.weight,
    percentage := round2 s.percentage,
    weightedScore := round2 s.weightedScore,
    notes := s.notes, dateRecorded := s.dateRecorded }

/-- Per-record entry pushed by getClassSubjectScores: this view has no
weightedScore and no notes field in the source. -/
structure ClassScoreView where
  id : String
  scoreType : String
  score : ℚ
  maxScore : ℚ
  weight : ℚ
  percentage : ℚ
  dateRecorded : String
deriving Repr, DecidableEq

def Score.toClassView (s : Score) : ClassScoreView :=
  { id := s.id, scoreType := s.scoreType, score := s.score,
    maxScore := s.maxScore, weight := s.weight,
    percentage := round2 s.percentage,
    dateRecorded := s.dateRecorded }

/-- The per-group accumulator of both views: the pushed per-record entries,
totalWeightedScore and totalWeight, the latter two accumulated unrounded. -/
structure Acc (V : Type) where
  scores : List V
  totalWeightedScore : ℚ
  totalWeight : ℚ
deriving Repr, DecidableEq

/-- The freshly initialized accumulator: scores [], both totals 0. -/
def Acc.start {V : Type} : Acc V := ⟨[], 0, 0⟩

/-- One loop iteration of either view: push the per-record entry and add the
unrounded weightedScore and weight to the running totals. -/
def stepAcc {V : Type} (view : Score → V) (acc : Acc V) (s : Score) : Acc V :=
  { scores := acc.scores ++ [view s],
    totalWeightedScore := acc.totalWeightedScore + s.weightedScore,
    totalWeight := acc.totalWeight + s.weight }

/-- Loop body of getStudentGrades for one score of the subject group. -/
def addToSubject (acc : Acc StudentScoreView) (s : Score) : Acc StudentScoreView :=
  stepAcc Score.toStudentView acc s

/-- Loop body of getClassSubjectScores for one score of the student group. -/
def addToStudent (acc : Acc ClassScoreView) (s : Score) : Acc ClassScoreView :=
  stepAcc Score.toClassView acc s

/-- finalGrade = totalWeight > 0 ? Math.round((tws / tw) * 100) / 100 : 0. -/
def finalGradeOf {V : Type} (acc : Acc V) : ℚ :=
  if acc.totalWeight > 0 then round2 (acc.totalWeightedScore / acc.totalWeight) else 0

/-- The letter-grade ladder of the source: start at F, promote through the
inclusive lower bounds 60, 70, 80, 90. -/
def letterGradeOf (finalGrade : ℚ) : String :=
  if finalGrade ≥ 90 then "A"
  else if finalGrade ≥ 80 then "B"
  else if finalGrade ≥ 70 then "C"
  else if finalGrade ≥ 60 then "D"
  else "F"

/-- The per-group slice of the objects returned by both views: the pushed
per-record entries, finalGrade, letterGrade and totalWeight.
getClassSubjectScores does not serialize totalWeight, but it computes it;
carrying it here loses nothing. -/
structure Summary (V : Type) where
  scores : List V
  finalGrade : ℚ
  letterGrade : String
  totalWeight : ℚ
deriving Repr, DecidableEq

/-- Final-grade step of both views, applied to each accumulator after the
score loop. -/
def summarize {V : Type} (acc : Acc V) : Summary V :=
  { scores := acc.scores,
    finalGrade := finalGradeOf acc,
    letterGrade := letterGradeOf (finalGradeOf acc),
    totalWeight := acc.totalWeight }

/-- The aggregation applied to one already-partitioned group of records, as
performed per subject by getStudentGrades. -/
def aggregate (ss : List Score) : Summary StudentScoreView :=
  summarize (ss.foldl addToSubject Acc.start)

/-- The aggregation applied to one student group of getClassSubjectScores. -/
def classAggregate (ss : List Score) : Summary ClassScoreView :=
  summarize (ss.foldl addToStudent Acc.start)

/-- Grouping step of getStudentGrades: if subjectGrades has no entry for the
subjectId of the score, a fresh accumulator is appended (JS objects keep
insertion order); then the score is added to the entry of its subjectId. -/
def insertScore (groups : List (String × Acc StudentScoreView)) (s : Score) :
    List (String × Acc StudentScoreView) :=
  if s.subjectId ∈ groups.map Prod.fst then
    groups.map fun p => if p.1 = s.subjectId then (p.1, addToSubject p.2 s) else p
  else
    groups ++ [(s.subjectId, addToSubject Acc.start s)]

/-- GradingService.getStudentGrades, from the grouping loop on: fold the
score rows into subjectId-keyed accumulators, then map the final-grade step
over the groups. The surrounding query code only fetches the rows. -/
def getStudentGrades (scores : List Score) : List (String × Summary StudentScoreView) :=
  (scores.foldl insertScore []).map fun p => (p.1, summarize p.2)

/-- First loop of getClassSubjectScores: one fresh accumulator per ACTIVE
enrollment, keyed by student id. In the source a duplicate student id would
re-assign the same fresh accumulator to the existing key, which leaves the
object unchanged, so the duplicate is modelled as a skip. -/
def startStudentGroups (enrolledIds : List String) :
    List (String × Acc ClassScoreView) :=
  enrolledIds.foldl
    (fun m sid => if sid ∈ m.map Prod.fst then m else m ++ [(sid, Acc.start)]) []

/-- Second loop of getClassSubjectScores: a score is added to the
accumulator of its studentId when one exists; a score whose studentId has no
ACTIVE enrollment is skipped. -/
def recordScore (m : List (String × Acc ClassScoreView)) (s : Score) :
    List (String × Acc ClassScoreView) :=
  if s.studentId ∈ m.map Prod.fst then
    m.map fun p => if p.1 = s.studentId then (p.1, addToStudent p.2 s) else p
  else m

/-- GradingService.getClassSubjectScores, from the grouping loops on: start
one accumulator per ACTIVE enrollment, fold the score rows of the class
subject into them, then map the final-grade step over the groups. -/
def getClassSubjectScores (enrolledIds : List String) (scores : List Score) :
    List (String × Summary ClassScoreView) :=
  (scores.foldl recordScore (startStudentGroups enrolledIds)).map
    fun p => (p.1, summarize p.2)

/-- Numeric fields of a createScoreSchema payload; the uuid, enum and string
fields of the schema are orthogonal to the numeric checks modelled here. -/
structure CreateScorePayload where
  score : ℚ
  maxScore : ℚ
  weight : ℚ
deriving Repr, DecidableEq

/-- Numeric checks of createScoreSchema: score min 0, maxScore positive,
weight min 0 max 1. -/
def createScoreValid (p : CreateScorePayload) : Bool :=
  decide (0 ≤ p.score) && decide (0 < p.maxScore) &&
    decide (0 ≤ p.weight) && decide (p.weight ≤ 1)

/-- Numeric fields of an updateScoreSchema payload; every field optional. -/
structure UpdateScorePayload where
  score : Option ℚ
  maxScore : Option ℚ
  weight : Option ℚ
deriving Repr, DecidableEq

/-- An optional zod check passes when the field is absent. -/
def optCheck (o : Option ℚ) (f : ℚ → Bool) : Bool :=
  match o with
  | none => true
  | some x => f x

/-- Numeric checks of updateScoreSchema: same bounds as creation, each field
checked only when present. -/
def updateScoreValid (p : UpdateScorePayload) : Bool :=
  optCheck p.score (fun x => decide (0 ≤ x)) &&
    optCheck p.maxScore (fun x => decide (0 < x)) &&
    optCheck p.weight (fun x => decide (0 ≤ x) && decide (x ≤ 1))

/-- Outcome of a score-creation request at the controller: either the zod
parse throws and the controller answers VALIDATION_ERROR with status 422
before the service runs, or the record is stored as sent. -/
inductive CreateScoreOutcome where
  | validationError (code : String) (status : Nat)
  | created (score maxScore weight : ℚ)
deriving Repr, DecidableEq

/-- GradingController.createScore, restricted to the validation gate: the
service and its inserts run only on a payload accepted by the schema. -/
def createScore (p : CreateScorePayload) : CreateScoreOutcome :=
  if createScoreValid p then .created p.score p.maxScore p.weight
  else .validationError "VALIDATION_ERROR" 422

/-- Outcome of a score-update request at the controller. -/
inductive UpdateScoreOutcome where
  | validationError (code : String) (status : Nat)
  | updated (score maxScore weight : ℚ)
deriving Repr, DecidableEq

/-- GradingController.updateScore, restricted to the validation gate: on an
accepted payload each present field overwrites the stored one (prisma leaves
an undefined field unchanged); on a rejected payload the stored record is
untouched and the controller answers VALIDATION_ERROR 422. -/
def updateScore (stored : CreateScorePayload) (p : UpdateScorePayload) :
    UpdateScoreOutcome :=
  if updateScoreValid p then
    .updated (p.score.getD stored.score) (p.maxScore.getD stored.maxScore)
      (p.weight.getD stored.weight)
  else .validationError "VALIDATION_ERROR" 422

/-- Insertion-ordered list of the distinct keys of a list, as a JS object
collects them. -/
def firstOcc (l : List String) : List String :=
  l.foldl (fun acc k => if k ∈ acc then acc else acc ++ [k]) []

/-- The fields of a score row that the grade arithmetic and the report-card
grouping read: subjectId, score, maxScore, weight. -/
def Score.gradeFields (s : Score) : String × ℚ × ℚ × ℚ :=
  (s.subjectId, s.score, s.maxScore, s.weight)

/-- The scores of one subject group of getStudentGrades, in row order. -/
def subjectGroup (ss : List Score) (k : String) : List Score :=
  ss.filter fun s => decide (s.subjectId = k)

/-- The scores of one student group of getClassSubjectScores, in row order. -/
def studentGroup (ss : List Score) (k : String) : List Score :=
  ss.filter fun s => decide (s.studentId = k)

/-! Accumulator lemmas: a left fold of the loop body over a group collects
the per-record views in order and sums the unrounded contributions. -/

theorem foldl_stepAcc_scores {V : Type} (view : Score → V) (ss : List Score)
    (acc : Acc V) :
    (ss.foldl (stepAcc view) acc).scores = acc.scores ++ ss.map view := by
  induction ss generalizing acc with
  | nil => simp
  | cons s ss ih => simp [ih, stepAcc]

theorem foldl_stepAcc_tws {V : Type} (view : Score → V) (ss : List Score)
    (acc : Acc V) :
    (ss.foldl (stepAcc view) acc).totalWeightedScore =
      acc.totalWeightedScore + (ss.map Score.weightedScore).sum := by
  induction ss generalizing acc with
  | nil => simp
  | cons s ss ih => simp [ih, stepAcc]; ring

theorem foldl_stepAcc_tw {V : Type} (view : Score → V) (ss : List Score)
    (acc : Acc V) :
    (ss.foldl (stepAcc view) acc).totalWeight =
      acc.totalWeight + (ss.map Score.weight).sum := by
  induction ss generalizing acc with
  | nil => simp
  | cons s ss ih => simp [ih, stepAcc]; ring

/-! Key-collection lemmas for the JS-object grouping. -/

theorem mem_foldl_occ (l m : List String) (x : String) :
    x ∈ l.foldl (fun acc k => if k ∈ acc then acc else acc ++ [k]) m ↔
      x ∈ m ∨ x ∈ l := by
  induction l generalizing m with
  | nil => simp
  | cons a l ih =>
    rw [List.foldl_cons, ih]
    by_cases h : a ∈ m
    · simp only [if_pos h, List.mem_cons]
      constructor
      · rintro (h1 | h2)
        · exact Or.inl h1
        · exact Or.inr (Or.inr h2)
      · rintro (h1 | h2 | h3)
        · exact Or.inl h1
        · exact Or.inl (h2 ▸ h)
        · exact Or.inr h3
    · simp only [if_neg h, List.mem_append, List.mem_singleton, List.mem_cons,
        List.not_mem_nil, or_false]
      constructor
      · rintro ((h1 | h2) | h3)
        · exact Or.inl h1
        · exact Or.inr (Or.inl h2)
        · exact Or.inr (Or.inr h3)
      · rintro (h1 | h2 | h3)
        · exact Or.inl (Or.inl h1)
        · exact Or.inl (Or.inr h2)
        · exact Or.inr h3

theorem mem_firstOcc (l : List String) (x : String) :
    x ∈ firstOcc l ↔ x ∈ l := by
  rw [firstOcc, mem_foldl_occ]; simp

theorem firstOcc_append_singleton (l : List String) (a : String) :
    firstOcc (l ++ [a]) =
      if a ∈ firstOcc l then firstOcc l else firstOcc l ++ [a] := by
  simp [firstOcc, List.foldl_append]

theorem foldl_occ_of_nodup (l : List String) :
    ∀ m : List String, l.Nodup → (∀ x ∈ l, x ∉ m) →
      l.foldl (fun acc k => if k ∈ acc then acc else acc ++ [k]) m = m ++ l := by
  induction l with
  | nil => simp
  | cons a l ih =>
    intro m hnd hm
    rw [List.foldl_cons, if_neg (hm a (List.mem_cons_self a l))]
    rw [ih (m ++ [a]) (List.nodup_cons.mp hnd).2]
    · simp
    · intro x hx
      simp only [List.mem_append, List.mem_singleton]
      rintro (h1 | h2)
      · exact hm x (List.mem_cons_of_mem a hx) h1
      · exact (List.nodup_cons.mp hnd).1 (h2 ▸ hx)

theorem firstOcc_of_nodup (l : List String) (h : l.Nodup) : firstOcc l = l := by
  simpa [firstOcc] using foldl_occ_of_nodup l [] h (by simp)

/-- The first components of an association list built over a key list are
those keys. -/
theorem map_fst_keyed {V : Type} (K : List String) (A : String → V) :
    ((K.map fun k => (k, A k)).map Prod.fst) = K := by
  rw [List.map_map, show (Prod.fst ∘ fun k => (k, A k)) = fun k => k from rfl,
    List.map_id']

theorem subjectGroup_append (ss : List Score) (s : Score) (k : String) :
    subjectGroup (ss ++ [s]) k =
      subjectGroup ss k ++ if s.subjectId = k then [s] else [] := by
  by_cases h : s.subjectId = k <;>
    simp [subjectGroup, List.filter_append, List.filter_singleton, h]

theorem studentGroup_append (ss : List Score) (s : Score) (k : String) :
    studentGroup (ss ++ [s]) k =
      studentGroup ss k ++ if s.studentId = k then [s] else [] := by
  by_cases h : s.studentId = k <;>
    simp [studentGroup, List.filter_append, List.filter_singleton, h]

theorem subjectGroup_eq_nil (ss : List Score) (k : String)
    (h : k ∉ ss.map Score.subjectId) : subjectGroup ss k = [] := by
  rw [subjectGroup, List.filter_eq_nil_iff]
  intro s hs
  simp only [decide_eq_true_eq]
  intro he
  exact h (List.mem_map.mpr ⟨s, hs, he⟩)

/-- The grouping loop of getStudentGrades produces one accumulator per
distinct subjectId, in first-occurrence order, and the accumulator of a
subject is the loop body folded over exactly the scores of that subject in
row order. -/
theorem foldl_insertScore_spec (ss : List Score) :
    ss.foldl insertScore [] =
      (firstOcc (ss.map Score.subjectId)).map
        fun k => (k, (subjectGroup ss k).foldl addToSubject Acc.start) := by
  induction ss using List.reverseRecOn with
  | nil => rfl
  | append_singleton ss s ih =>
    rw [List.foldl_append, List.foldl_cons, List.foldl_nil, ih]
    simp only [List.map_append, List.map_cons, List.map_nil]
    rw [firstOcc_append_singleton]
    simp only [insertScore]
    rw [map_fst_keyed]
    by_cases h : s.subjectId ∈ firstOcc (ss.map Score.subjectId)
    · rw [if_pos h, if_pos h, List.map_map]
      apply List.map_congr_left
      intro k hk
      by_cases hks : k = s.subjectId
      · subst hks
        rw [subjectGroup_append, if_pos rfl, List.foldl_append, List.foldl_cons,
          List.foldl_nil]
        simp
      · rw [subjectGroup_append, if_neg (fun he => hks he.symm), List.append_nil]
        simp [hks]
    · rw [if_neg h, if_neg h, List.map_append, List.map_cons, List.map_nil]
      congr 1
      · apply List.map_congr_left
        intro k hk
        have hks : ¬ s.subjectId = k := fun he => h (he ▸ hk)
        rw [subjectGroup_append, if_neg hks, List.append_nil]
      · rw [subjectGroup_append, if_pos rfl,
          subjectGroup_eq_nil ss s.subjectId
            (fun hm => h ((mem_firstOcc _ _).mpr hm)),
          List.nil_append, List.foldl_cons, List.foldl_nil]

theorem startStudentGroups_append (ids : List String) (a : String) :
    startStudentGroups (ids ++ [a]) =
      if a ∈ (startStudentGroups ids).map Prod.fst then startStudentGroups ids
      else startStudentGroups ids ++ [(a, Acc.start)] := by
  simp [startStudentGroups, List.foldl_append]

/-- The enrollment loop of getClassSubjectScores produces one fresh
accumulator per distinct enrolled student id, in order. -/
theorem startStudentGroups_spec (ids : List String) :
    startStudentGroups ids =
      (firstOcc ids).map fun k => (k, (Acc.start : Acc ClassScoreView)) := by
  induction ids using List.reverseRecOn with
  | nil => rfl
  | append_singleton ids a ih =>
    rw [startStudentGroups_append, ih, firstOcc_append_singleton, map_fst_keyed]
    by_cases h : a ∈ firstOcc ids
    · simp only [if_pos h]
    · simp only [if_neg h, List.map_append, List.map_cons, List.map_nil]

/-- The score loop of getClassSubjectScores keeps exactly the accumulators
of the enrollment loop, and the accumulator of an enrolled student is the
loop body folded over exactly the scores of that student in row order. -/
theorem foldl_recordScore_spec (ids : List String) (ss : List Score) :
    ss.foldl recordScore (startStudentGroups ids) =
      (firstOcc ids).map
        fun k => (k, (studentGroup ss k).foldl addToStudent Acc.start) := by
  induction ss using List.reverseRecOn with
  | nil => rw [List.foldl_nil, startStudentGroups_spec]; rfl
  | append_singleton ss s ih =>
    rw [List.foldl_append, List.foldl_cons, List.foldl_nil, ih]
    simp only [recordScore]
    rw [map_fst_keyed]
    by_cases h : s.studentId ∈ firstOcc ids
    · rw [if_pos h, List.map_map]
      apply List.map_congr_left
      intro k hk
      by_cases hks : k = s.studentId
      · subst hks
        rw [studentGroup_append, if_pos rfl, List.foldl_append, List.foldl_cons,
          List.foldl_nil]
        simp
      · rw [studentGroup_append, if_neg (fun he => hks he.symm), List.append_nil]
        simp [hks]
    · rw [if_neg h]
      apply List.map_congr_left
      intro k hk
      have hks : ¬ s.studentId = k := fun he => h (he ▸ hk)
      rw [studentGroup_append, if_neg hks, List.append_nil]

/-- getStudentGrades, characterized: one summary per distinct subjectId in
first-occurrence order, each summary the aggregation of exactly the scores
of that subject. -/
theorem getStudentGrades_spec (ss : List Score) :
    getStudentGrades ss =
      (firstOcc (ss.map Score.subjectId)).map
        fun k => (k, aggregate (subjectGroup ss k)) := by
  rw [getStudentGrades, foldl_insertScore_spec, List.map_map]
  rfl

/-- getClassSubjectScores, characterized: one summary per distinct enrolled
student id in order, each summary the aggregation of exactly the scores of
that enrolled student. -/
theorem getClassSubjectScores_spec (ids : List String) (ss : List Score) :
    getClassSubjectScores ids ss =
      (firstOcc ids).map fun k => (k, classAggregate (studentGroup ss k)) := by
  rw [getClassSubjectScores, foldl_recordScore_spec, List.map_map]
  rfl

theorem foldl_addToSubject_scores (ss : List Score) (acc : Acc StudentScoreView) :
    (ss.foldl addToSubject acc).scores = acc.scores ++ ss.map Score.toStudentView :=
  foldl_stepAcc_scores Score.toStudentView ss acc

theorem foldl_addToSubject_tws (ss : List Score) (acc : Acc StudentScoreView) :
    (ss.foldl addToSubject acc).totalWeightedScore =
      acc.totalWeightedScore + (ss.map Score.weightedScore).sum :=
  foldl_stepAcc_tws Score.toStudentView ss acc

theorem foldl_addToSubject_tw (ss : List Score) (acc : Acc StudentScoreView) :
    (ss.foldl addToSubject acc).totalWeight =
      acc.totalWeight + (ss.map Score.weight).sum :=
  foldl_stepAcc_tw Score.toStudentView ss acc

theorem foldl_addToStudent_scores (ss : List Score) (acc : Acc ClassScoreView) :
    (ss.foldl addToStudent acc).scores = acc.scores ++ ss.map Score.toClassView :=
  foldl_stepAcc_scores Score.toClassView ss acc

theorem foldl_addToStudent_tws (ss : List Score) (acc : Acc ClassScoreView) :
    (ss.foldl addToStudent acc).totalWeightedScore =
      acc.totalWeightedScore + (ss.map Score.weightedScore).sum :=
  foldl_stepAcc_tws Score.toClassView ss acc

theorem foldl_addToStudent_tw (ss : List Score) (acc : Acc ClassScoreView) :
    (ss.foldl addToStudent acc).totalWeight =
      acc.totalWeight + (ss.map Score.weight).sum :=
  foldl_stepAcc_tw Score.toClassView ss acc

/-! Field-level description of the per-group aggregation. -/

theorem aggregate_scores (ss : List Score) :
    (aggregate ss).scores = ss.map Score.toStudentView := by
  simp only [aggregate, summarize, foldl_addToSubject_scores, Acc.start,
    List.nil_append]

theorem aggregate_totalWeight (ss : List Score) :
    (aggregate ss).totalWeight = (ss.map Score.weight).sum := by
  simp only [aggregate, summarize, foldl_addToSubject_tw, Acc.start, zero_add]

theorem aggregate_finalGrade (ss : List Score) :
    (aggregate ss).finalGrade =
      if 0 < (ss.map Score.weight).sum
      then round2 ((ss.map Score.weightedScore).sum / (ss.map Score.weight).sum)
      else 0 := by
  simp only [aggregate, summarize, finalGradeOf, foldl_addToSubject_tw,
    foldl_addToSubject_tws, Acc.start, zero_add, gt_iff_lt]

theorem aggregate_letterGrade (ss : List Score) :
    (aggregate ss).letterGrade = letterGradeOf ((aggregate ss).finalGrade) := rfl

theorem classAggregate_scores (ss : List Score) :
    (classAggregate ss).scores = ss.map Score.toClassView := by
  simp only [classAggregate, summarize, foldl_addToStudent_scores, Acc.start,
    List.nil_append]

theorem classAggregate_totalWeight (ss : List Score) :
    (classAggregate ss).totalWeight = (ss.map Score.weight).sum := by
  simp only [classAggregate, summarize, foldl_addToStudent_tw, Acc.start, zero_add]

theorem classAggregate_finalGrade (ss : List Score) :
    (classAggregate ss).finalGrade =
      if 0 < (ss.map Score.weight).sum
      then round2 ((ss.map Score.weightedScore).sum / (ss.map Score.weight).sum)
      else 0 := by
  simp only [classAggregate, summarize, finalGradeOf, foldl_addToStudent_tw,
    foldl_addToStudent_tws, Acc.start, zero_add, gt_iff_lt]

theorem classAggregate_letterGrade (ss : List Score) :
    (classAggregate ss).letterGrade =
      letterGradeOf ((classAggregate ss).finalGrade) := rfl

/-! Letter-grade banding characterization. -/

theorem letterGradeOf_eq_A (g : ℚ) : letterGradeOf g = "A" ↔ 90 ≤ g := by
  unfold letterGradeOf
  split_ifs with h1 h2 h3 h4 <;> simp_all

theorem letterGradeOf_eq_B (g : ℚ) :
    letterGradeOf g = "B" ↔ 80 ≤ g ∧ g < 90 := by
  unfold letterGradeOf
  split_ifs with h1 h2 h3 h4 <;> simp_all <;> try (intros ; linarith)

theorem letterGradeOf_eq_C (g : ℚ) :
    letterGradeOf g = "C" ↔ 70 ≤ g ∧ g < 80 := by
  unfold letterGradeOf
  split_ifs with h1 h2 h3 h4 <;> simp_all <;> try (intros ; linarith)

theorem letterGradeOf_eq_D (g : ℚ) :
    letterGradeOf g = "D" ↔ 60 ≤ g ∧ g < 70 := by
  unfold letterGradeOf
  split_ifs with h1 h2 h3 h4 <;> simp_all <;> try (intros ; linarith)

theorem letterGradeOf_eq_F (g : ℚ) : letterGradeOf g = "F" ↔ g < 60 := by
  unfold letterGradeOf
  split_ifs with h1 h2 h3 h4 <;> simp_all <;> try (intros ; linarith)

theorem studentGroup_eq_nil (ss : List Score) (k : String)
    (h : ∀ s ∈ ss, s.studentId ≠ k) : studentGroup ss k = [] := by
  rw [studentGroup, List.filter_eq_nil_iff]
  intro s hs
  simp only [decide_eq_true_eq]
  exact h s hs

/-- Claim C1: for every group of validated score records, the aggregation of
both views computes finalGrade as round2 of totalWeightedScore divided by
totalWeight when totalWeight is positive and 0 otherwise, where
totalWeightedScore sums the unrounded values (rawScore / maxScore) * 100 *
weight and totalWeight sums the weights; the per-record contributions enter
the sums unrounded, rounding happens only on the final quotient, while the
per-record output list carries the separately rounded views. -/
theorem grading_finalGrade_weighted_average (ss : List Score)
    (hv : ∀ s ∈ ss, 0 ≤ s.score ∧ 0 < s.maxScore ∧ 0 ≤ s.weight ∧ s.weight ≤ 1) :
    ((aggregate ss).finalGrade =
        (if 0 < (ss.map Score.weight).sum
         then round2 ((ss.map fun s => s.score / s.maxScore * 100 * s.weight).sum /
            (ss.map Score.weight).sum)
         else 0) ∧
      (aggregate ss).totalWeight = (ss.map Score.weight).sum ∧
      (aggregate ss).scores = ss.map Score.toStudentView) ∧
    ((classAggregate ss).finalGrade =
        (if 0 < (ss.map Score.weight).sum
         then round2 ((ss.map fun s => s.score / s.maxScore * 100 * s.weight).sum /
            (ss.map Score.weight).sum)
         else 0) ∧
      (classAggregate ss).totalWeight = (ss.map Score.weight).sum ∧
      (classAggregate ss).scores = ss.map Score.toClassView) :=
  ⟨⟨aggregate_finalGrade ss, aggregate_totalWeight ss, aggregate_scores ss⟩,
    ⟨classAggregate_finalGrade ss, classAggregate_totalWeight ss,
      classAggregate_scores ss⟩⟩

/-- Witness for C1 at a concrete validated single-record group. -/
theorem grading_finalGrade_weighted_average_witness :
    (aggregate [⟨"a", "st", "su", "QUIZ", 45, 50, 1, "", ""⟩]).totalWeight =
      ([⟨"a", "st", "su", "QUIZ", 45, 50, 1, "", ""⟩].map Score.weight).sum :=
  (grading_finalGrade_weighted_average _ (by decide)).1.2.1

/-- Claim C2: both views assign letterGrade from finalGrade through the
fixed inclusive lower bounds 90, 80, 70, 60; in particular 90 gives A,
89.99 gives B, 60 gives D and 59.99 gives F. -/
theorem grading_letter_grade_banding :
    (∀ ss : List Score,
        (aggregate ss).letterGrade = letterGradeOf ((aggregate ss).finalGrade) ∧
        (classAggregate ss).letterGrade =
          letterGradeOf ((classAggregate ss).finalGrade)) ∧
    (∀ g : ℚ,
        (letterGradeOf g = "A" ↔ 90 ≤ g) ∧
        (letterGradeOf g = "B" ↔ 80 ≤ g ∧ g < 90) ∧
        (letterGradeOf g = "C" ↔ 70 ≤ g ∧ g < 80) ∧
        (letterGradeOf g = "D" ↔ 60 ≤ g ∧ g < 70) ∧
        (letterGradeOf g = "F" ↔ g < 60)) ∧
    letterGradeOf 90 = "A" ∧ letterGradeOf (8999/100) = "B" ∧
    letterGradeOf 60 = "D" ∧ letterGradeOf (5999/100) = "F" := by
  refine ⟨fun ss => ⟨rfl, rfl⟩,
    fun g => ⟨letterGradeOf_eq_A g, letterGradeOf_eq_B g, letterGradeOf_eq_C g,
      letterGradeOf_eq_D g, letterGradeOf_eq_F g⟩, ?_, ?_, ?_, ?_⟩ <;>
    norm_num [letterGradeOf]

/-- Witness for C2 at the 90.00 boundary. -/
theorem grading_letter_grade_banding_witness : letterGradeOf 90 = "A" :=
  grading_letter_grade_banding.2.2.1

/-- Claim C3: for a validated record the reported per-record percentage is
(rawScore / maxScore) * 100 rounded to two decimals through
round(x * 100) / 100, which is round half up; the record with rawScore 45,
maxScore 50, weight 1 yields percentage 90, finalGrade 90 and letterGrade A. -/
theorem grading_percentage_rounding (s : Score) (h0 : 0 ≤ s.score)
    (h1 : 0 < s.maxScore) :
    (s.toStudentView.percentage = round2 (s.score / s.maxScore * 100) ∧
      s.toClassView.percentage = round2 (s.score / s.maxScore * 100) ∧
      (∀ x : ℚ, round2 x = ((⌊x * 100 + 1/2⌋ : ℤ) : ℚ) / 100)) ∧
    (aggregate [⟨"a", "st", "su", "QUIZ", 45, 50, 1, "", ""⟩]).scores.map
        (fun v => v.percentage) = [90] ∧
    (aggregate [⟨"a", "st", "su", "QUIZ", 45, 50, 1, "", ""⟩]).finalGrade = 90 ∧
    (aggregate [⟨"a", "st", "su", "QUIZ", 45, 50, 1, "", ""⟩]).letterGrade = "A" := by
  have hfg : (aggregate [⟨"a", "st", "su", "QUIZ", 45, 50, 1, "", ""⟩]).finalGrade
      = 90 := by
    rw [aggregate_finalGrade]
    norm_num [Score.weightedScore, Score.percentage, round2, mathRound]
  refine ⟨⟨rfl, rfl, fun x => rfl⟩, ?_, hfg, ?_⟩
  · rw [aggregate_scores]
    norm_num [Score.toStudentView, Score.percentage, round2, mathRound]
  · rw [aggregate_letterGrade, hfg]
    norm_num [letterGradeOf]

/-- Witness for C3 at the record of property P5. -/
theorem grading_percentage_rounding_witness :
    (aggregate [⟨"a", "st", "su", "QUIZ", 45, 50, 1, "", ""⟩]).finalGrade = 90 :=
  (grading_percentage_rounding ⟨"a", "st", "su", "QUIZ", 45, 50, 1, "", ""⟩
    (by decide) (by decide)).2.2.1

/-- Claim C4: aggregating an empty record group returns finalGrade 0,
letterGrade F and an empty per-record list, and in getClassSubjectScores
every student with an ACTIVE enrollment but no score rows receives exactly
that empty summary; the computation is total, so no error is raised. -/
theorem grading_empty_group_default (ids : List String) (ss : List Score)
    (sid : String) (hmem : sid ∈ ids) (hnone : ∀ s ∈ ss, s.studentId ≠ sid) :
    (aggregate [] = ⟨[], 0, "F", 0⟩ ∧
      classAggregate [] = ⟨[], 0, "F", 0⟩) ∧
    (sid, (⟨[], 0, "F", 0⟩ : Summary ClassScoreView)) ∈
      getClassSubjectScores ids ss := by
  refine ⟨⟨rfl, rfl⟩, ?_⟩
  rw [getClassSubjectScores_spec]
  apply List.mem_map.mpr
  refine ⟨sid, (mem_firstOcc ids sid).mpr hmem, ?_⟩
  rw [studentGroup_eq_nil ss sid hnone]
  rfl

/-- Witness for C4: an enrolled student with only a foreign score row in the
class receives the empty summary. -/
theorem grading_empty_group_default_witness :
    ("a", (⟨[], 0, "F", 0⟩ : Summary ClassScoreView)) ∈
      getClassSubjectScores ["a"] [⟨"x", "b", "su", "QUIZ", 1, 2, 1, "", ""⟩] :=
  (grading_empty_group_default ["a"] [⟨"x", "b", "su", "QUIZ", 1, 2, 1, "", ""⟩]
    "a" (by decide) (by decide)).2

/-- Claim C5: a score-creation or score-update payload with non-positive
maxScore, negative score, or weight outside [0, 1] is rejected by the
validation boundary as VALIDATION_ERROR with status 422, whatever the other
fields hold; no record is created or modified and the aggregation is never
reached, since the service runs only in the accepting branch. -/
theorem grading_validation_rejects_invalid :
    (∀ p : CreateScorePayload,
        (p.maxScore ≤ 0 ∨ p.score < 0 ∨ p.weight < 0 ∨ 1 < p.weight) →
        createScore p = .validationError "VALIDATION_ERROR" 422) ∧
    (∀ stored : CreateScorePayload, ∀ p : UpdateScorePayload,
        ((∃ x, p.maxScore = some x ∧ x ≤ 0) ∨ (∃ x, p.score = some x ∧ x < 0) ∨
          (∃ x, p.weight = some x ∧ (x < 0 ∨ 1 < x))) →
        updateScore stored p = .validationError "VALIDATION_ERROR" 422) := by
  constructor
  · intro p h
    have hfalse : ¬ createScoreValid p = true := by
      simp only [createScoreValid, Bool.and_eq_true, decide_eq_true_eq]
      rintro ⟨⟨⟨hs, hm⟩, hw0⟩, hw1⟩
      rcases h with h | h | h | h
      · exact absurd hm (not_lt.mpr h)
      · exact absurd hs (not_le.mpr h)
      · exact absurd hw0 (not_le.mpr h)
      · exact absurd hw1 (not_le.mpr h)
    simp [createScore, hfalse]
  · intro stored p h
    have hfalse : ¬ updateScoreValid p = true := by
      intro hc
      simp only [updateScoreValid, Bool.and_eq_true] at hc
      obtain ⟨⟨h1, h2⟩, h3⟩ := hc
      rcases h with ⟨x, hx, hb⟩ | ⟨x, hx, hb⟩ | ⟨x, hx, hb⟩
      · rw [hx] at h2
        simp only [optCheck, decide_eq_true_eq] at h2
        linarith
      · rw [hx] at h1
        simp only [optCheck, decide_eq_true_eq] at h1
        linarith
      · rw [hx] at h3
        simp only [optCheck, Bool.and_eq_true, decide_eq_true_eq] at h3
        rcases hb with hb | hb <;> linarith [h3.1, h3.2]
    simp [updateScore, hfalse]

/-- Witness for C5: maxScore 0 on creation and on update. -/
theorem grading_validation_rejects_invalid_witness :
    createScore ⟨5, 0, 1/2⟩ = .validationError "VALIDATION_ERROR" 422 ∧
    updateScore ⟨1, 1, 1⟩ ⟨none, some 0, none⟩ =
      .validationError "VALIDATION_ERROR" 422 :=
  ⟨grading_validation_rejects_invalid.1 ⟨5, 0, 1/2⟩ (Or.inl (by decide)),
    grading_validation_rejects_invalid.2 ⟨1, 1, 1⟩ ⟨none, some 0, none⟩
      (Or.inl ⟨0, rfl, by decide⟩)⟩

/-- Claim C6: inserting or removing a weight-0 record anywhere in a group
leaves finalGrade and letterGrade unchanged, and a non-empty group in which
every weight is 0 has totalWeight 0 and lands in the same zero branch as the
empty group: finalGrade 0, letterGrade F. -/
theorem grading_zero_weight_neutrality :
    (∀ xs ys : List Score, ∀ r : Score, r.weight = 0 →
        (aggregate (xs ++ r :: ys)).finalGrade =
          (aggregate (xs ++ ys)).finalGrade ∧
        (aggregate (xs ++ r :: ys)).letterGrade =
          (aggregate (xs ++ ys)).letterGrade) ∧
    (∀ ss : List Score, ss ≠ [] → (∀ s ∈ ss, s.weight = 0) →
        (aggregate ss).totalWeight = 0 ∧
        (aggregate ss).finalGrade = 0 ∧ (aggregate ss).letterGrade = "F" ∧
        (aggregate ss).finalGrade = (aggregate []).finalGrade ∧
        (aggregate ss).letterGrade = (aggregate []).letterGrade) := by
  constructor
  · intro xs ys r hr
    have hw : ((xs ++ r :: ys).map Score.weight).sum =
        ((xs ++ ys).map Score.weight).sum := by
      simp [hr]
    have hws : ((xs ++ r :: ys).map Score.weightedScore).sum =
        ((xs ++ ys).map Score.weightedScore).sum := by
      simp [Score.weightedScore, hr]
    have hfg : (aggregate (xs ++ r :: ys)).finalGrade =
        (aggregate (xs ++ ys)).finalGrade := by
      rw [aggregate_finalGrade, aggregate_finalGrade, hw, hws]
    exact ⟨hfg, by rw [aggregate_letterGrade, aggregate_letterGrade, hfg]⟩
  · intro ss hne hz
    have hw : (ss.map Score.weight).sum = 0 := by
      apply List.sum_eq_zero
      intro x hx
      obtain ⟨s, hs, rfl⟩ := List.mem_map.mp hx
      exact hz s hs
    have hfg : (aggregate ss).finalGrade = 0 := by
      rw [aggregate_finalGrade, hw]
      simp
    refine ⟨by rw [aggregate_totalWeight, hw], hfg, ?_, ?_, ?_⟩
    · rw [aggregate_letterGrade, hfg]; rfl
    · rw [hfg]; rfl
    · rw [aggregate_letterGrade, hfg, aggregate_letterGrade]; rfl

/-- Witness for C6: a lone weight-0 record grades like the empty group. -/
theorem grading_zero_weight_neutrality_witness :
    (aggregate ([] ++ (⟨"a", "st", "su", "QUIZ", 7, 10, 0, "", ""⟩ : Score) ::
        [])).finalGrade = (aggregate ([] ++ [])).finalGrade :=
  (grading_zero_weight_neutrality.1 [] [] _ (by decide)).1

theorem map_filter_pull {α β : Type} (f : α → β) (p : β → Bool) (l : List α) :
    (l.filter fun a => p (f a)).map f = (l.map f).filter p := by
  induction l with
  | nil => rfl
  | cons a l ih =>
    by_cases h : p (f a)
    · simp [List.filter_cons, h, ih]
    · simp [List.filter_cons, h, ih]

theorem map_subjectId_of_gradeFields (l₁ l₂ : List Score)
    (h : l₁.map Score.gradeFields = l₂.map Score.gradeFields) :
    l₁.map Score.subjectId = l₂.map Score.subjectId := by
  have h2 := congrArg (List.map fun t : String × ℚ × ℚ × ℚ => t.1) h
  rw [List.map_map, List.map_map] at h2
  exact h2

theorem map_weight_of_gradeFields (l₁ l₂ : List Score)
    (h : l₁.map Score.gradeFields = l₂.map Score.gradeFields) :
    l₁.map Score.weight = l₂.map Score.weight := by
  have h2 := congrArg (List.map fun t : String × ℚ × ℚ × ℚ => t.2.2.2) h
  rw [List.map_map, List.map_map] at h2
  exact h2

theorem map_weightedScore_of_gradeFields (l₁ l₂ : List Score)
    (h : l₁.map Score.gradeFields = l₂.map Score.gradeFields) :
    l₁.map Score.weightedScore = l₂.map Score.weightedScore := by
  have h2 := congrArg
    (List.map fun t : String × ℚ × ℚ × ℚ => t.2.1 / t.2.2.1 * 100 * t.2.2.2) h
  rw [List.map_map, List.map_map] at h2
  exact h2

/-- The grade outputs of a group depend only on the grade-relevant fields
of its records. -/
theorem aggregate_grade_congr (l₁ l₂ : List Score)
    (h : l₁.map Score.gradeFields = l₂.map Score.gradeFields) :
    (aggregate l₁).finalGrade = (aggregate l₂).finalGrade ∧
    (aggregate l₁).letterGrade = (aggregate l₂).letterGrade := by
  have hfg : (aggregate l₁).finalGrade = (aggregate l₂).finalGrade := by
    rw [aggregate_finalGrade, aggregate_finalGrade,
      map_weight_of_gradeFields l₁ l₂ h, map_weightedScore_of_gradeFields l₁ l₂ h]
  exact ⟨hfg, by rw [aggregate_letterGrade, aggregate_letterGrade, hfg]⟩

theorem map_gradeFields_subjectGroup (ss : List Score) (k : String) :
    (subjectGroup ss k).map Score.gradeFields =
      (ss.map Score.gradeFields).filter fun t => decide (t.1 = k) :=
  map_filter_pull Score.gradeFields (fun t => decide (t.1 = k)) ss

/-- Claim C7: the grade aggregation is a pure function of the input record
set: recomputation on the same rows gives identical output, and the subject
keys, finalGrade and letterGrade of the report card are determined by the
grade-relevant record fields alone, with no hidden state or history. -/
theorem grading_aggregation_deterministic :
    (∀ ss : List Score,
        getStudentGrades ss = getStudentGrades ss ∧ aggregate ss = aggregate ss) ∧
    (∀ ss₁ ss₂ : List Score,
        ss₁.map Score.gradeFields = ss₂.map Score.gradeFields →
        (getStudentGrades ss₁).map
            (fun p => (p.1, p.2.finalGrade, p.2.letterGrade)) =
          (getStudentGrades ss₂).map
            (fun p => (p.1, p.2.finalGrade, p.2.letterGrade))) := by
  refine ⟨fun ss => ⟨rfl, rfl⟩, fun ss₁ ss₂ h => ?_⟩
  rw [getStudentGrades_spec, getStudentGrades_spec, List.map_map, List.map_map,
    map_subjectId_of_gradeFields ss₁ ss₂ h]
  apply List.map_congr_left
  intro k hk
  have hg : (subjectGroup ss₁ k).map Score.gradeFields =
      (subjectGroup ss₂ k).map Score.gradeFields := by
    rw [map_gradeFields_subjectGroup, map_gradeFields_subjectGroup, h]
  obtain ⟨hfg, hlg⟩ := aggregate_grade_congr _ _ hg
  show (k, (aggregate (subjectGroup ss₁ k)).finalGrade,
      (aggregate (subjectGroup ss₁ k)).letterGrade) =
    (k, (aggregate (subjectGroup ss₂ k)).finalGrade,
      (aggregate (subjectGroup ss₂ k)).letterGrade)
  rw [hfg, hlg]

/-- Witness for C7: two rows equal on the grade fields but with different
ids, student ids, notes and dates produce the same grade output. -/
theorem grading_aggregation_deterministic_witness :
    (getStudentGrades [⟨"a", "st", "su", "QUIZ", 45, 50, 1, "n1", "d1"⟩]).map
        (fun p => (p.1, p.2.finalGrade, p.2.letterGrade)) =
      (getStudentGrades [⟨"b", "st2", "su", "QUIZ", 45, 50, 1, "n2", "d2"⟩]).map
        (fun p => (p.1, p.2.finalGrade, p.2.letterGrade)) :=
  grading_aggregation_deterministic.2 _ _ rfl

/-- Claim C8: in the report-card view a subject appears in the results
exactly when at least one score row of that subject exists in the queried
scope, and every emitted entry has a non-empty per-record list, so this view
never emits the empty-group 0 / F summary. -/
theorem report_card_subjects_iff_scores (ss : List Score) (k : String) :
    (k ∈ (getStudentGrades ss).map Prod.fst ↔ k ∈ ss.map Score.subjectId) ∧
    (∀ e ∈ getStudentGrades ss, e.2.scores ≠ []) := by
  constructor
  · rw [getStudentGrades_spec, map_fst_keyed, mem_firstOcc]
  · intro e he
    rw [getStudentGrades_spec] at he
    obtain ⟨k2, hk2, rfl⟩ := List.mem_map.mp he
    show (aggregate (subjectGroup ss k2)).scores ≠ []
    rw [aggregate_scores]
    intro hnil
    have hk3 : k2 ∈ ss.map Score.subjectId := (mem_firstOcc _ _).mp hk2
    obtain ⟨s, hs, hid⟩ := List.mem_map.mp hk3
    have hmem : s ∈ subjectGroup ss k2 := by
      rw [subjectGroup, List.mem_filter]
      exact ⟨hs, by simp [hid]⟩
    have hmm := List.mem_map_of_mem Score.toStudentView hmem
    rw [hnil] at hmm
    exact absurd hmm (List.not_mem_nil _)

/-- Witness for C8: a subject with one score row appears in the results. -/
theorem report_card_subjects_iff_scores_witness :
    "su" ∈ (getStudentGrades
        [⟨"a", "st", "su", "QUIZ", 45, 50, 1, "", ""⟩]).map Prod.fst :=
  (report_card_subjects_iff_scores
    [⟨"a", "st", "su", "QUIZ", 45, 50, 1, "", ""⟩] "su").1.mpr (by decide)

/-- Claim C9: the gradebook view returns exactly one entry per ACTIVE
enrollment, in enrollment order, and a score row whose studentId has no
ACTIVE enrollment is discarded: deleting it does not change the output at
all. Enrollment student ids are pairwise distinct by the unique index on
Enrollment (studentId, classId, academicYearId). -/
theorem gradebook_one_entry_per_enrollment (ids : List String) (ss : List Score)
    (hnd : ids.Nodup) :
    ((getClassSubjectScores ids ss).map Prod.fst = ids) ∧
    (∀ xs ys : List Score, ∀ s : Score, s.studentId ∉ ids →
        getClassSubjectScores ids (xs ++ s :: ys) =
          getClassSubjectScores ids (xs ++ ys)) := by
  constructor
  · rw [getClassSubjectScores_spec, map_fst_keyed, firstOcc_of_nodup ids hnd]
  · intro xs ys s hs
    rw [getClassSubjectScores_spec, getClassSubjectScores_spec]
    apply List.map_congr_left
    intro k hk
    have hk2 : k ∈ ids := (mem_firstOcc ids k).mp hk
    have hne : s.studentId ≠ k := fun he => hs (he ▸ hk2)
    have hgrp : studentGroup (xs ++ s :: ys) k = studentGroup (xs ++ ys) k := by
      simp [studentGroup, List.filter_append, List.filter_cons, hne]
    rw [hgrp]

/-- Witness for C9 on a two-student class with no scores. -/
theorem gradebook_one_entry_per_enrollment_witness :
    (getClassSubjectScores ["a", "b"] []).map Prod.fst = ["a", "b"] :=
  (gradebook_one_entry_per_enrollment ["a", "b"] [] (by decide)).1

/-- Claim C10: the validation boundary does not require rawScore to be at
most maxScore: the payload score 150, maxScore 100, weight 1 is accepted,
and aggregating that record reports percentage 150 and finalGrade 150,
above 100, still lettered A. -/
theorem grading_no_upper_bound_on_score :
    createScoreValid ⟨150, 100, 1⟩ = true ∧
    (aggregate [⟨"a", "st", "su", "FINAL", 150, 100, 1, "", ""⟩]).scores.map
        (fun v => v.percentage) = [150] ∧
    (aggregate [⟨"a", "st", "su", "FINAL", 150, 100, 1, "", ""⟩]).finalGrade
      = 150 ∧
    100 < (aggregate [⟨"a", "st", "su", "FINAL", 150, 100, 1, "", ""⟩]).finalGrade ∧
    (aggregate [⟨"a", "st", "su", "FINAL", 150, 100, 1, "", ""⟩]).letterGrade
      = "A" := by
  have hfg : (aggregate [⟨"a", "st", "su", "FINAL", 150, 100, 1, "", ""⟩]).finalGrade
      = 150 := by
    rw [aggregate_finalGrade]
    norm_num [Score.weightedScore, Score.percentage, round2, mathRound]
  refine ⟨by decide, ?_, hfg, ?_, ?_⟩
  · rw [aggregate_scores]
    norm_num [Score.toStudentView, Score.percentage, round2, mathRound]
  · rw [hfg]; norm_num
  · rw [aggregate_letterGrade, hfg]; norm_num [letterGradeOf]

end Educore
